import Mathlib

/-!
Shallow embedding of `src/OBT.py`: the OBT archive container format.

Files are modelled as `List Nat` (each element one byte, 0..255).  The
Python file handle plus on-disk file becomes an explicit byte-list argument;
`os.path.getsize` is the list's length.  The `entries` dictionary, whose keys
are by construction exactly `0..N-1` in insertion order (assigned
sequentially by `load` and by `add_entry` via `entry_offset`), is modelled as
a list indexed by position.  Python exceptions become an error type returned
alongside the (possibly mutated) object state, so that partially mutated
state on a failure path is preserved, exactly as in Python where `raise`
leaves `self` mutated.
-/

/-- Little-endian 4-byte encoding of a natural number below `2^32`, as
`struct.pack "<I"` lays it out: four bytes, least significant first. -/
def le32 (n : Nat) : List Nat :=
  [n % 256, n / 256 % 256, n / 65536 % 256, n / 16777216 % 256]

/-- Little-endian byte-list decoding, as `int.from_bytes(b, "little")`:
byte 0 is least significant. -/
def fromLE : List Nat → Nat
  | [] => 0
  | b :: rest => b + 256 * fromLE rest

/-- Errors raised by the Python code.
`obtError msg` is `OBTError` (message prefixed "OBT Error:" at display time,
kept as the raw argument here); `invalidOBTFile msg` is its subclass
`InvalidOBTFileError`; `typeError` is the `TypeError` produced by
`raise OBTEntry(msg)` in `export_entry` (`OBTEntry.__init__` takes no
message argument, so constructing it raises `TypeError` before anything is
raised as an `OBTError`); `structError` is `struct.error` from
`struct.pack`/`struct.unpack` on out-of-range values or short reads. -/
inductive OBTErr
  | obtError (msg : String)
  | invalidOBTFile (msg : String)
  | typeError
  | structError
deriving DecidableEq, Repr

deriving instance DecidableEq for Except

/-- `OBTFileMode` from the source (an `IntEnum` with values -1, 0, 1). -/
inductive OBTFileMode
  | OBT_None
  | OBT_Read
  | OBT_Write
deriving DecidableEq, Repr

/-- `OBTEntry`: metadata plus optional in-memory payload for one archive
slot.  `offset`, `size`, `is_compressed` are Python ints initialised to -1,
hence `Int` here; `raw_entry` starts as `None`. -/
structure OBTEntry where
  offset : Int
  size : Int
  is_compressed : Int
  loaded : Bool
  raw_entry : Option (List Nat)
deriving DecidableEq, Repr

/-- `OBTEntry.__init__`: offset = size = is_compressed = -1,
loaded = False, raw_entry = None. -/
def OBTEntry.init : OBTEntry :=
  { offset := -1, size := -1, is_compressed := -1, loaded := false,
    raw_entry := none }

/-- `OBTEntry.load(offset, size, is_compressed)`: assigns the three fields
and sets `loaded = True`.  The source performs no check on `loaded`; the
assignment happens unconditionally. -/
def OBTEntry.load (e : OBTEntry) (offset size is_compressed : Int) :
    OBTEntry :=
  { e with
    offset := offset, size := size, is_compressed := is_compressed,
    loaded := true }

/-- `OBTEntry.frombytes(entry)`: raises `OBTError` if `loaded` is set,
otherwise records the payload and derives `size` from its length. -/
def OBTEntry.frombytes (e : OBTEntry) (entry : List Nat) :
    Except OBTErr OBTEntry :=
  if e.loaded then .error (.obtError "Cannot overwrite a loaded entry")
  else .ok { e with size := (entry.length : Int), raw_entry := some entry }

/-- `OBT` object state.  `filename` and the file handle `fp` are replaced by
explicit byte-list arguments to the operations that touch the file. -/
structure OBT where
  entries : List OBTEntry
  total_size : Nat
  entry_offset : Nat
  mode : OBTFileMode
deriving DecidableEq, Repr

/-- `OBT.__init__(filename)`: empty entry table, total_size = 0,
entry_offset = 0, mode = OBT_None. -/
def OBT.init : OBT :=
  { entries := [], total_size := 0, entry_offset := 0,
    mode := OBTFileMode.OBT_None }

/-- `OBT.init_write(overwrite)`.  The filesystem probe
`os.path.isfile(self.filename)` becomes the explicit argument
`file_exists`.  On success the mode becomes Write (opening with "wb+"
truncates the file, so writing starts from an empty file at position 0). -/
def OBT.init_write (o : OBT) (file_exists overwrite : Bool) :
    OBT × Option OBTErr :=
  if o.mode ≠ OBTFileMode.OBT_None then
    (o, some (.obtError "File is already opened"))
  else if file_exists && !overwrite then
    (o, some (.obtError "Will not overwrite unless explicitly enabled"))
  else
    ({ o with mode := OBTFileMode.OBT_Write }, none)

/-- The `for i in range(n_entries)` loop body of `OBT.load`: seek to
`i * 0xC`, read 12 bytes, `struct.unpack "<III"` them (a short read raises
`struct.error`), reject a compression value outside {0, 1} with `OBTError`,
then bind a fresh `OBTEntry` and accumulate `total_size`.  First argument
is the file's bytes, then the remaining iteration count, the current index
`i`, and the mutated object. -/
def loadLoop (file : List Nat) : Nat → Nat → OBT → OBT × Option OBTErr
  | 0, _, o => (o, none)
  | n + 1, i, o =>
    let chunk := (file.drop (i * 12)).take 12
    if chunk.length < 12 then (o, some .structError)
    else
      let entry_offset := fromLE (chunk.take 4)
      let entry_size := fromLE ((chunk.drop 4).take 4)
      let entry_is_compressed := fromLE ((chunk.drop 8).take 4)
      if entry_is_compressed ≠ 0 ∧ entry_is_compressed ≠ 1 then
        (o, some (.obtError "Unknown compression method"))
      else
        loadLoop file n (i + 1)
          { o with
            entries := o.entries ++
              [OBTEntry.init.load (entry_offset : Int) (entry_size : Int)
                (entry_is_compressed : Int)],
            total_size := o.total_size + entry_size }

/-- `OBT.load()` applied to the file's bytes (the file-existence probe is
subsumed by the bytes being given; `raw_fsiz = os.path.getsize` is the
length).  Mirrors the source line by line: mode guard, 4-byte minimum,
little-endian header size from the first 4 bytes, header-vs-file-size
guard, `total_size += hdr_size`, the entry loop over `hdr_size // 12` rows,
the final declared-size guard, and only then the transition to Read mode. -/
def OBT.load (o : OBT) (file : List Nat) : OBT × Option OBTErr :=
  if o.mode ≠ OBTFileMode.OBT_None then
    (o, some (.obtError "File is already opened"))
  else if file.length < 4 then
    (o, some (.invalidOBTFile "Could not read header size"))
  else
    let hdr_size := fromLE (file.take 4)
    if file.length < hdr_size then
      (o, some (.invalidOBTFile "Could not read header"))
    else
      let o1 := { o with total_size := o.total_size + hdr_size }
      match loadLoop file (hdr_size / 12) 0 o1 with
      | (o2, some e) => (o2, some e)
      | (o2, none) =>
        if file.length < o2.total_size then
          (o2, some (.invalidOBTFile "Not enough data in file"))
        else
          ({ o2 with mode := OBTFileMode.OBT_Read }, none)

/-- `OBT.add_entry(entry, compressed)`: requires Write mode; builds a fresh
`OBTEntry`, fills it via `frombytes` (which cannot fail on a fresh entry
but is called exactly as in the source), overwrites `is_compressed` with
the caller's boolean (`True`/`False`, i.e. 1/0 once packed), stores it at
key `entry_offset` (the next list position) and increments the counter. -/
def OBT.add_entry (o : OBT) (entry : List Nat) (compressed : Bool) :
    OBT × Option OBTErr :=
  if o.mode ≠ OBTFileMode.OBT_Write then
    (o, some (.obtError "OBT has not been opened for writing"))
  else
    match OBTEntry.init.frombytes entry with
    | .error e => (o, some e)
    | .ok obt_entry =>
      let obt_entry := { obt_entry with
        is_compressed := if compressed then 1 else 0 }
      ({ o with
        entries := o.entries ++ [obt_entry],
        entry_offset := o.entry_offset + 1 }, none)

/-- `struct.pack "<I"` on one value: little-endian 4 bytes, raising
`struct.error` when the value is negative or does not fit in 32 bits. -/
def packU32 (v : Int) : Except OBTErr (List Nat) :=
  if v < 0 then .error .structError
  else if v.toNat < 4294967296 then .ok (le32 v.toNat)
  else .error .structError

/-- The header-writing loop of `finalize_write`: for each entry in index
order, `struct.pack "<III"` of (cur_off, size, is_compressed), with
`cur_off` advanced by the entry's size.  `struct.pack` raises on any field
out of the unsigned 32-bit range. -/
def writeHeader : List OBTEntry → Int → Except OBTErr (List Nat)
  | [], _ => .ok []
  | e :: rest, cur_off =>
    match packU32 cur_off, packU32 e.size, packU32 e.is_compressed with
    | .ok b1, .ok b2, .ok b3 =>
      match writeHeader rest (cur_off + e.size) with
      | .ok tail => .ok (b1 ++ b2 ++ b3 ++ tail)
      | .error err => .error err
    | .error err, _, _ => .error err
    | .ok _, .error err, _ => .error err
    | .ok _, .ok _, .error err => .error err

/-- The payload-writing loop of `finalize_write`: each entry's `raw_entry`
in index order (`fp.write(None)` would raise `TypeError`). -/
def writePayload : List OBTEntry → Except OBTErr (List Nat)
  | [] => .ok []
  | e :: rest =>
    match e.raw_entry with
    | none => .error .typeError
    | some b =>
      match writePayload rest with
      | .ok tail => .ok (b ++ tail)
      | .error err => .error err

/-- `OBT.finalize_write()`: requires Write mode and a non-empty entry
table; computes `header_size = N * 0xC`, seeks to 0, writes all header rows
with contiguous offsets starting at `header_size`, then all payloads in the
same order.  The result is the file's final byte content (the file was
opened with "wb+", hence previously empty). -/
def OBT.finalize_write (o : OBT) : Except OBTErr (List Nat) :=
  if o.mode ≠ OBTFileMode.OBT_Write then
    .error (.obtError "OBT has not been opened for writing")
  else if o.entries.length = 0 then
    .error (.obtError "No entries to write")
  else
    match writeHeader o.entries ((o.entries.length * 12 : Nat) : Int),
        writePayload o.entries with
    | .ok header, .ok payload => .ok (header ++ payload)
    | .error err, _ => .error err
    | .ok _, .error err => .error err

/-- `OBT.export_entry(entry_idx)` applied to the file's bytes: requires
Read mode (else `OBTError`); an index outside the entry table triggers
`raise OBTEntry(msg)`, which is a `TypeError` since `OBTEntry.__init__`
accepts no message; otherwise seek to the entry's offset and
`fp.read(size)`, which returns the bytes up to end of file (possibly fewer
than `size`). -/
def OBT.export_entry (o : OBT) (file : List Nat) (entry_idx : Nat) :
    Except OBTErr (List Nat) :=
  if o.mode ≠ OBTFileMode.OBT_Read then
    .error (.obtError "File is not opened")
  else if h : entry_idx < o.entries.length then
    let entry := o.entries.get ⟨entry_idx, h⟩
    .ok ((file.drop entry.offset.toNat).take entry.size.toNat)
  else
    .error .typeError

/-- The offset field of header row `i` of a raw file: the 4 bytes at byte
offset `i * 12`, little-endian. -/
def rowOff (file : List Nat) (i : Nat) : Nat :=
  fromLE ((file.drop (i * 12)).take 4)

/-- The size field of header row `i`: the 4 bytes at `i * 12 + 4`. -/
def rowSize (file : List Nat) (i : Nat) : Nat :=
  fromLE ((file.drop (i * 12 + 4)).take 4)

/-- The compression-flag field of header row `i`: the 4 bytes at
`i * 12 + 8`. -/
def rowFlag (file : List Nat) (i : Nat) : Nat :=
  fromLE ((file.drop (i * 12 + 8)).take 4)

/-- The entry records that the `load` loop binds from rows
`i, i+1, …, i+n-1` of the file. -/
def parsedEntries (file : List Nat) : Nat → Nat → List OBTEntry
  | 0, _ => []
  | n + 1, i =>
    OBTEntry.init.load (rowOff file i : Int) (rowSize file i : Int)
        (rowFlag file i : Int) ::
      parsedEntries file n (i + 1)

/-- The sum of the declared size fields of rows `i, …, i+n-1`. -/
def parsedTotal (file : List Nat) : Nat → Nat → Nat
  | 0, _ => 0
  | n + 1, i => rowSize file i + parsedTotal file n (i + 1)

/-- Discriminator: is this a raised `InvalidOBTFileError` (the "invalid
archive" format/validation error kind)? -/
def isInvalidOBTFileErr : Option OBTErr → Bool
  | some (.invalidOBTFile _) => true
  | _ => false

/-- The entry record that `add_entry payload compressed` appends in Write
mode (fresh record, payload stored, size derived, flag from the caller). -/
def writeEntryOf (b : List Nat) (f : Bool) : OBTEntry :=
  { offset := -1, size := (b.length : Int),
    is_compressed := if f then 1 else 0, loaded := false,
    raw_entry := some b }

/-- Repeated `add_entry` over a list of (payload, compressed) pairs, in
list order. -/
def addAll (o : OBT) : List (List Nat × Bool) → OBT
  | [] => o
  | bf :: rest => addAll (o.add_entry bf.1 bf.2).1 rest

/-- A fresh archive opened for writing (to a non-existing path) with all
the given entries added in order. -/
def writerOf (blobs : List (List Nat × Bool)) : OBT :=
  addAll (OBT.init.init_write false false).1 blobs

/-- Total payload length of a list of (payload, compressed) pairs. -/
def sizesSum (blobs : List (List Nat × Bool)) : Nat :=
  (blobs.map (fun bf => bf.1.length)).sum

/-- Total payload length of the first `i` pairs: the byte offset of
payload `i` within the concatenated payload region. -/
def presum (blobs : List (List Nat × Bool)) (i : Nat) : Nat :=
  sizesSum (blobs.take i)

/-- The header bytes `finalize_write` produces for the given entries when
the first row's offset field is `off`: one 12-byte row per entry, offsets
contiguous. -/
def headerAux : List (List Nat × Bool) → Nat → List Nat
  | [], _ => []
  | bf :: rest, off =>
    le32 off ++ le32 bf.1.length ++ le32 (if bf.2 then 1 else 0) ++
      headerAux rest (off + bf.1.length)

/-- The complete file `finalize_write` produces for the given entries:
header table then concatenated payloads. -/
def obtfileOf (blobs : List (List Nat × Bool)) : List Nat :=
  headerAux blobs (blobs.length * 12) ++ (blobs.map (fun bf => bf.1)).flatten

/-! Basic byte-level lemmas. -/

lemma le32_length (n : Nat) : (le32 n).length = 4 := rfl

lemma fromLE_le32 {n : Nat} (h : n < 4294967296) : fromLE (le32 n) = n := by
  simp only [le32, fromLE]
  omega

lemma take4_le32_append (n : Nat) (rest : List Nat) :
    (le32 n ++ rest).take 4 = le32 n :=
  List.take_left (le32 n) rest

lemma drop4_le32_append (n : Nat) (rest : List Nat) :
    (le32 n ++ rest).drop 4 = rest :=
  List.drop_left (le32 n) rest

lemma packU32_spec (v : Int) :
    (0 ≤ v ∧ v < 4294967296 → packU32 v = .ok (le32 v.toNat)) ∧
    (¬(0 ≤ v ∧ v < 4294967296) → packU32 v = .error .structError) := by
  unfold packU32
  constructor
  · rintro ⟨h0, hlt⟩
    rw [if_neg (by omega), if_pos (by omega)]
  · intro h
    push_neg at h
    by_cases h0 : v < 0
    · rw [if_pos h0]
    · rw [if_neg h0, if_neg (by omega)]

lemma packU32_natCast (n : Nat) (h : n < 4294967296) :
    packU32 (n : Int) = .ok (le32 n) := by
  have hp := (packU32_spec (n : Int)).1
    ⟨Int.natCast_nonneg n, by exact_mod_cast h⟩
  rwa [Int.toNat_natCast] at hp

/-! Characterization of the `load` entry loop. -/

lemma loadLoop_succ (file : List Nat) (n i : Nat) (o : OBT)
    (hlen : i * 12 + 12 ≤ file.length) :
    loadLoop file (n + 1) i o =
      if rowFlag file i ≠ 0 ∧ rowFlag file i ≠ 1 then
        (o, some (.obtError "Unknown compression method"))
      else
        loadLoop file n (i + 1)
          { o with
            entries := o.entries ++
              [OBTEntry.init.load (rowOff file i : Int) (rowSize file i : Int)
                (rowFlag file i : Int)],
            total_size := o.total_size + rowSize file i } := by
  have hchunk : ¬(((file.drop (i * 12)).take 12).length < 12) := by
    simp only [List.length_take, List.length_drop]
    omega
  have h1 : ((file.drop (i * 12)).take 12).take 4 = (file.drop (i * 12)).take 4 := by
    rw [List.take_take]
    norm_num
  have h2 : (((file.drop (i * 12)).take 12).drop 4).take 4 =
      (file.drop (i * 12 + 4)).take 4 := by
    rw [List.drop_take, List.take_take, List.drop_drop]
    norm_num
  have h3 : (((file.drop (i * 12)).take 12).drop 8).take 4 =
      (file.drop (i * 12 + 8)).take 4 := by
    rw [List.drop_take, List.take_take, List.drop_drop]
    norm_num
  simp only [loadLoop, hchunk, if_false, h1, h2, h3, rowOff, rowSize, rowFlag]

lemma loadLoop_mode (file : List Nat) :
    ∀ (n i : Nat) (o : OBT), (loadLoop file n i o).1.mode = o.mode := by
  intro n
  induction n with
  | zero => intro i o; rfl
  | succ n ih =>
    intro i o
    simp only [loadLoop]
    split
    · rfl
    · split
      · rfl
      · rw [ih]

lemma loadLoop_ok (file : List Nat) :
    ∀ (n i : Nat) (o : OBT),
      (i + n) * 12 ≤ file.length →
      (∀ k, k < n → rowFlag file (i + k) = 0 ∨ rowFlag file (i + k) = 1) →
      loadLoop file n i o =
        ({ o with
          entries := o.entries ++ parsedEntries file n i,
          total_size := o.total_size + parsedTotal file n i }, none) := by
  intro n
  induction n with
  | zero =>
    intro i o _ _
    simp [loadLoop, parsedEntries, parsedTotal]
  | succ n ih =>
    intro i o hlen hflag
    rw [loadLoop_succ file n i o (by omega)]
    rw [if_neg (by
      have h0 := hflag 0 (by omega)
      simp only [Nat.add_zero] at h0
      push_neg
      intro hne
      rcases h0 with h | h
      · exact absurd h hne
      · exact h)]
    rw [ih (i + 1) _ (by omega) (fun k hk => by
      have := hflag (k + 1) (by omega)
      have heq : i + (k + 1) = i + 1 + k := by omega
      rwa [heq] at this)]
    simp [parsedEntries, parsedTotal, List.append_assoc, Nat.add_assoc]

lemma loadLoop_err (file : List Nat) :
    ∀ (k n i : Nat) (o : OBT), k < n →
      (i + n) * 12 ≤ file.length →
      (∀ j, j < k → rowFlag file (i + j) = 0 ∨ rowFlag file (i + j) = 1) →
      rowFlag file (i + k) ≠ 0 → rowFlag file (i + k) ≠ 1 →
      (loadLoop file n i o).2 = some (.obtError "Unknown compression method") := by
  intro k
  induction k with
  | zero =>
    intro n i o hk hlen _ hb0 hb1
    obtain ⟨m, rfl⟩ : ∃ m, n = m + 1 := ⟨n - 1, by omega⟩
    rw [loadLoop_succ file m i o (by omega)]
    simp only [Nat.add_zero] at hb0 hb1
    rw [if_pos ⟨hb0, hb1⟩]
  | succ k ih =>
    intro n i o hk hlen hgood hb0 hb1
    obtain ⟨m, rfl⟩ : ∃ m, n = m + 1 := ⟨n - 1, by omega⟩
    rw [loadLoop_succ file m i o (by omega)]
    rw [if_neg (by
      have h0 := hgood 0 (by omega)
      simp only [Nat.add_zero] at h0
      push_neg
      intro hne
      rcases h0 with h | h
      · exact absurd h hne
      · exact h)]
    refine ih m (i + 1) _ (by omega) (by omega) ?_ ?_ ?_
    · intro j hj
      have := hgood (j + 1) (by omega)
      have heq : i + (j + 1) = i + 1 + j := by omega
      rwa [heq] at this
    · have heq : i + (k + 1) = i + 1 + k := by omega
      rwa [heq] at hb0
    · have heq : i + (k + 1) = i + 1 + k := by omega
      rwa [heq] at hb1

lemma parsedEntries_length (file : List Nat) :
    ∀ (n i : Nat), (parsedEntries file n i).length = n := by
  intro n
  induction n with
  | zero => intro i; rfl
  | succ n ih => intro i; simp [parsedEntries, ih]

lemma parsedEntries_getD (file : List Nat) :
    ∀ (n i k : Nat), k < n →
      (parsedEntries file n i).getD k OBTEntry.init =
        OBTEntry.init.load (rowOff file (i + k) : Int)
          (rowSize file (i + k) : Int) (rowFlag file (i + k) : Int) := by
  intro n
  induction n with
  | zero => intro i k hk; omega
  | succ n ih =>
    intro i k hk
    cases k with
    | zero => simp [parsedEntries]
    | succ k =>
      rw [parsedEntries, List.getD_cons_succ, ih (i + 1) k (by omega)]
      have heq : i + 1 + k = i + (k + 1) := by omega
      rw [heq]

/-- Full characterization of `load` on a fresh archive once the header is
readable (at least 4 bytes, declared header size within the file) and all
compression flags are valid: all rows are bound, and the final size check
decides between failure (mode stays `OBT_None`) and success (mode becomes
`OBT_Read`). -/
lemma load_parsed (file : List Nat) (h4 : ¬(file.length < 4))
    (hh : ¬(file.length < fromLE (file.take 4)))
    (hflag : ∀ k, k < fromLE (file.take 4) / 12 →
      rowFlag file k = 0 ∨ rowFlag file k = 1) :
    OBT.init.load file =
      (if file.length <
          fromLE (file.take 4) +
            parsedTotal file (fromLE (file.take 4) / 12) 0 then
        ({ entries := parsedEntries file (fromLE (file.take 4) / 12) 0,
           total_size := fromLE (file.take 4) +
             parsedTotal file (fromLE (file.take 4) / 12) 0,
           entry_offset := 0, mode := OBTFileMode.OBT_None },
         some (.invalidOBTFile "Not enough data in file"))
      else
        ({ entries := parsedEntries file (fromLE (file.take 4) / 12) 0,
           total_size := fromLE (file.take 4) +
             parsedTotal file (fromLE (file.take 4) / 12) 0,
           entry_offset := 0, mode := OBTFileMode.OBT_Read }, none)) := by
  unfold OBT.load
  rw [if_neg (by simp [OBT.init]), if_neg h4, if_neg hh]
  simp only [OBT.init, Nat.zero_add]
  rw [loadLoop_ok file (fromLE (file.take 4) / 12) 0
    { entries := [], total_size := fromLE (file.take 4), entry_offset := 0,
      mode := OBTFileMode.OBT_None }
    (by
      have := Nat.div_mul_le_self (fromLE (file.take 4)) 12
      omega)
    (fun k hk => by simpa using hflag k hk)]
  simp

/-! Claim theorems. -/

/-- C8: writing exactly the two entries b"AB" (flag false) and b"CDE"
(flag true) produces the 29-byte file whose header is the two little-endian
12-byte rows (24, 2, 0) and (26, 3, 1), whose bytes 24-25 are "AB" and
whose bytes 26-28 are "CDE". -/
theorem write_concrete_two_entries :
    (((OBT.init.init_write false false).1.add_entry [65, 66] false).1.add_entry
        [67, 68, 69] true).1.finalize_write =
      .ok (le32 24 ++ le32 2 ++ le32 0 ++ le32 26 ++ le32 3 ++ le32 1 ++
        [65, 66] ++ [67, 68, 69]) ∧
    (le32 24 ++ le32 2 ++ le32 0 ++ le32 26 ++ le32 3 ++ le32 1 ++
        [65, 66] ++ [67, 68, 69]).length = 29 ∧
    ((le32 24 ++ le32 2 ++ le32 0 ++ le32 26 ++ le32 3 ++ le32 1 ++
        [65, 66] ++ [67, 68, 69]).drop 24).take 2 = [65, 66] ∧
    (le32 24 ++ le32 2 ++ le32 0 ++ le32 26 ++ le32 3 ++ le32 1 ++
        [65, 66] ++ [67, 68, 69]).drop 26 = [67, 68, 69] := by
  decide

/-- C5: a file shorter than 4 bytes fails to load with the header-size
format error ("could not read header size"); a file whose first 4 bytes
decode (little-endian) to a header size exceeding the file length fails
with the header-read format error ("could not read header"). -/
theorem load_short_file_errors (file : List Nat) :
    (file.length < 4 →
      OBT.init.load file =
        (OBT.init, some (.invalidOBTFile "Could not read header size"))) ∧
    (4 ≤ file.length → file.length < fromLE (file.take 4) →
      OBT.init.load file =
        (OBT.init, some (.invalidOBTFile "Could not read header"))) := by
  constructor
  · intro h
    simp [OBT.load, OBT.init, h]
  · intro h4 hlt
    simp [OBT.load, OBT.init, hlt, show ¬(file.length < 4) from by omega]

/-- C5 witness: the empty file and the file [255,255,255,255] (declared
header size 4294967295). -/
theorem load_short_file_errors_witness :
    OBT.init.load [] =
      (OBT.init, some (.invalidOBTFile "Could not read header size")) ∧
    OBT.init.load [255, 255, 255, 255] =
      (OBT.init, some (.invalidOBTFile "Could not read header")) :=
  ⟨(load_short_file_errors []).1 (by decide),
   (load_short_file_errors [255, 255, 255, 255]).2 (by decide) (by decide)⟩

/-- C10: a file of length at least 4 whose first 4 bytes decode to a value
below 12 that does not exceed the file length loads successfully into Read
mode with zero entries, although the writer can never produce such a file:
`finalize_write` on an archive with no entries fails with "no entries to
write". -/
theorem load_tiny_header_zero_entries (file : List Nat)
    (h4 : 4 ≤ file.length) (hv : fromLE (file.take 4) < 12)
    (hvl : fromLE (file.take 4) ≤ file.length) :
    OBT.init.load file =
      ({ entries := [], total_size := fromLE (file.take 4), entry_offset := 0,
         mode := OBTFileMode.OBT_Read }, none) ∧
    (∀ o : OBT, o.mode = OBTFileMode.OBT_Write → o.entries = [] →
      o.finalize_write = .error (.obtError "No entries to write")) := by
  constructor
  · have hp := load_parsed file (by omega) (by omega)
      (fun k hk => absurd hk (by rw [Nat.div_eq_of_lt hv]; omega))
    rw [Nat.div_eq_of_lt hv] at hp
    simp only [parsedEntries, parsedTotal, Nat.add_zero] at hp
    rw [hp, if_neg (by omega)]
  · intro o hm he
    unfold OBT.finalize_write
    rw [if_neg (by simp [hm]), if_pos (by simp [he])]

/-- C10 witness: the 4-byte file [4,0,0,0] (declared header size 4), and a
write-mode archive holding no entries. -/
theorem load_tiny_header_zero_entries_witness :
    OBT.init.load [4, 0, 0, 0] =
      ({ entries := [], total_size := 4, entry_offset := 0,
         mode := OBTFileMode.OBT_Read }, none) ∧
    OBT.finalize_write
      { entries := [], total_size := 0, entry_offset := 0,
        mode := OBTFileMode.OBT_Write } =
      .error (.obtError "No entries to write") := by
  have h := load_tiny_header_zero_entries [4, 0, 0, 0] (by decide) (by decide)
    (by decide)
  exact ⟨h.1.trans (by decide), h.2 _ rfl rfl⟩

/-- C2 counterexample: calling the bind operation (`OBTEntry.load`) on a
record that is already loaded does not fail — it silently overwrites the
offset/size/flag fields (there is no failure path in `OBTEntry.load`). -/
theorem bind_overwrite_cx :
    (OBTEntry.init.load 10 5 1).loaded = true ∧
    (OBTEntry.init.load 10 5 1).load 7 8 0 =
      { offset := 7, size := 8, is_compressed := 0, loaded := true,
        raw_entry := none } := by
  decide

/-- C2 amended: `OBTEntry.load` performs no already-loaded check — on any
record it simply assigns the fields and sets `loaded`; the already-loaded
state error belongs to `frombytes` (the payload-set operation), which
fails on every record with `loaded = true`. -/
theorem bind_unguarded_frombytes_guarded (e : OBTEntry)
    (offset size is_compressed : Int) :
    e.load offset size is_compressed =
      { offset := offset, size := size, is_compressed := is_compressed,
        loaded := true, raw_entry := e.raw_entry } ∧
    (e.loaded = true → ∀ b : List Nat,
      e.frombytes b =
        .error (.obtError "Cannot overwrite a loaded entry")) := by
  refine ⟨rfl, fun h b => ?_⟩
  simp [OBTEntry.frombytes, h]

/-- C2 witness: a loaded record rejects `frombytes`. -/
theorem bind_unguarded_frombytes_guarded_witness :
    (OBTEntry.init.load 1 2 1).frombytes [9] =
      .error (.obtError "Cannot overwrite a loaded entry") :=
  (bind_unguarded_frombytes_guarded (OBTEntry.init.load 1 2 1) 0 0 0).2 rfl [9]

/-- C4 counterexample: on the 12-byte file whose single header row carries
compression flag 2, `load` fails with the unknown-compression message but
raises the plain generic `OBTError`, not the distinct "invalid archive"
`InvalidOBTFileError` kind. -/
theorem badflag_error_kind_cx :
    (OBT.init.load [12, 0, 0, 0, 0, 0, 0, 0, 2, 0, 0, 0]).2 =
      some (.obtError "Unknown compression method") ∧
    isInvalidOBTFileErr
      (OBT.init.load [12, 0, 0, 0, 0, 0, 0, 0, 2, 0, 0, 0]).2 = false := by
  decide

/-- C4 amended: a header row with a compression flag outside {0, 1} (the
first such row, all earlier rows being valid) makes `load` fail with the
unknown-compression error, but that error is the generic `OBTError`, not
the distinct "invalid archive" (`InvalidOBTFileError`) kind. -/
theorem load_badflag_generic_error (file : List Nat) (k : Nat)
    (h4 : 4 ≤ file.length) (hh : fromLE (file.take 4) ≤ file.length)
    (hk : k < fromLE (file.take 4) / 12)
    (hgood : ∀ j, j < k → rowFlag file j = 0 ∨ rowFlag file j = 1)
    (hb0 : rowFlag file k ≠ 0) (hb1 : rowFlag file k ≠ 1) :
    (OBT.init.load file).2 = some (.obtError "Unknown compression method") ∧
    isInvalidOBTFileErr (OBT.init.load file).2 = false := by
  have hmain : (OBT.init.load file).2 =
      some (.obtError "Unknown compression method") := by
    unfold OBT.load
    rw [if_neg (by simp [OBT.init]), if_neg (by omega), if_neg (by omega)]
    simp only [OBT.init, Nat.zero_add]
    have herr := loadLoop_err file k (fromLE (file.take 4) / 12) 0
      { entries := [], total_size := fromLE (file.take 4), entry_offset := 0,
        mode := OBTFileMode.OBT_None }
      hk
      (by
        have := Nat.div_mul_le_self (fromLE (file.take 4)) 12
        omega)
      (fun j hj => by simpa using hgood j hj)
      (by simpa using hb0) (by simpa using hb1)
    rcases hL : loadLoop file (fromLE (file.take 4) / 12) 0
      { entries := [], total_size := fromLE (file.take 4), entry_offset := 0,
        mode := OBTFileMode.OBT_None } with ⟨o2, r⟩
    rw [hL] at herr
    simp only at herr
    rw [herr]
  exact ⟨hmain, by rw [hmain]; rfl⟩

/-- C4 witness: a single-row file with flag 3. -/
theorem load_badflag_generic_error_witness :
    (OBT.init.load [12, 0, 0, 0, 0, 0, 0, 0, 3, 0, 0, 0]).2 =
      some (.obtError "Unknown compression method") :=
  (load_badflag_generic_error [12, 0, 0, 0, 0, 0, 0, 0, 3, 0, 0, 0] 0
    (by decide) (by decide) (by decide)
    (fun j hj => absurd hj (Nat.not_lt_zero j)) (by decide) (by decide)).1

/-- C9 counterexample: on a file that fails the final size check, the mode
stays `OBT_None`, but the failed archive object still holds the fully
bound entry record and the accumulated `total_size` — partial parsed state
remains exposed to callers through the public fields. -/
theorem load_partial_state_cx :
    (OBT.init.load [12, 0, 0, 0, 7, 0, 0, 0, 0, 0, 0, 0]).2 =
      some (.invalidOBTFile "Not enough data in file") ∧
    (OBT.init.load [12, 0, 0, 0, 7, 0, 0, 0, 0, 0, 0, 0]).1.entries.length
      = 1 ∧
    (OBT.init.load [12, 0, 0, 0, 7, 0, 0, 0, 0, 0, 0, 0]).1.total_size
      = 19 := by
  decide

/-- C9 amended: `load` on a fresh archive transitions the mode to Read
exactly when every validation step succeeds; on any failure the mode is
still `OBT_None` and `export_entry` on the resulting archive always fails
with the not-opened state error (though partially parsed records may
remain stored in the object). -/
theorem load_mode_read_iff_success (file : List Nat) :
    ((OBT.init.load file).2 = none →
      (OBT.init.load file).1.mode = OBTFileMode.OBT_Read) ∧
    (∀ err, (OBT.init.load file).2 = some err →
      (OBT.init.load file).1.mode = OBTFileMode.OBT_None ∧
      ∀ (file2 : List Nat) (idx : Nat),
        (OBT.init.load file).1.export_entry file2 idx =
          .error (.obtError "File is not opened")) := by
  have branches :
      ((OBT.init.load file).1.mode = OBTFileMode.OBT_Read ∧
        (OBT.init.load file).2 = none) ∨
      ((OBT.init.load file).1.mode = OBTFileMode.OBT_None ∧
        (OBT.init.load file).2 ≠ none) := by
    unfold OBT.load
    rw [if_neg (by simp [OBT.init])]
    by_cases h4 : file.length < 4
    · rw [if_pos h4]
      right
      exact ⟨rfl, by simp⟩
    rw [if_neg h4]
    by_cases hh : file.length < fromLE (file.take 4)
    · rw [if_pos hh]
      right
      exact ⟨rfl, by simp⟩
    rw [if_neg hh]
    simp only [OBT.init, Nat.zero_add]
    have hm := loadLoop_mode file (fromLE (file.take 4) / 12) 0
      { entries := [], total_size := fromLE (file.take 4), entry_offset := 0,
        mode := OBTFileMode.OBT_None }
    rcases hL : loadLoop file (fromLE (file.take 4) / 12) 0
      { entries := [], total_size := fromLE (file.take 4), entry_offset := 0,
        mode := OBTFileMode.OBT_None } with ⟨o2, r⟩
    rw [hL] at hm
    simp only at hm
    cases r with
    | some e =>
      right
      exact ⟨hm, by simp⟩
    | none =>
      by_cases hd : file.length < o2.total_size
      · right
        refine ⟨?_, ?_⟩ <;> simp [hd, hm]
      · left
        refine ⟨?_, ?_⟩ <;> simp [hd]
  constructor
  · intro hnone
    rcases branches with ⟨hm, _⟩ | ⟨_, hne⟩
    · exact hm
    · exact absurd hnone hne
  · intro err herr
    rcases branches with ⟨_, hnone⟩ | ⟨hm, _⟩
    · rw [herr] at hnone
      exact absurd hnone (by simp)
    · refine ⟨hm, fun file2 idx => ?_⟩
      unfold OBT.export_entry
      rw [if_pos (by rw [hm]; simp)]

/-- C9 witness: success case ([4,0,0,0] loads into Read mode) and failure
case (the empty-ish file [1,2] stays `OBT_None` and rejects export). -/
theorem load_mode_read_iff_success_witness :
    (OBT.init.load [4, 0, 0, 0]).1.mode = OBTFileMode.OBT_Read ∧
    (OBT.init.load [1, 2]).1.mode = OBTFileMode.OBT_None ∧
    (OBT.init.load [1, 2]).1.export_entry [5, 6] 0 =
      .error (.obtError "File is not opened") := by
  have h1 := (load_mode_read_iff_success [4, 0, 0, 0]).1
  have h2 := (load_mode_read_iff_success [1, 2]).2
    (.invalidOBTFile "Could not read header size")
  exact ⟨h1 (by decide), (h2 (by decide)).1, (h2 (by decide)).2 [5, 6] 0⟩

/-- C6: when the header parses fully (at least 4 bytes, declared header
size within the file, every row's compression flag in {0, 1}) but the
header size plus the sum of the declared entry sizes exceeds the file
length, `load` fails with the "not enough data" format error — and the
resulting state shows all `headerSize / 12` records were bound before the
check ran. -/
theorem load_not_enough_data (file : List Nat)
    (h4 : 4 ≤ file.length) (hh : fromLE (file.take 4) ≤ file.length)
    (hflag : ∀ k, k < fromLE (file.take 4) / 12 →
      rowFlag file k = 0 ∨ rowFlag file k = 1)
    (hdata : file.length <
      fromLE (file.take 4) +
        parsedTotal file (fromLE (file.take 4) / 12) 0) :
    (OBT.init.load file).2 =
      some (.invalidOBTFile "Not enough data in file") ∧
    (OBT.init.load file).1.entries.length = fromLE (file.take 4) / 12 := by
  have hp := load_parsed file (by omega) (by omega) hflag
  rw [hp, if_pos hdata]
  exact ⟨rfl, parsedEntries_length file _ _⟩

/-- C6 witness: a single-row file declaring a 5-byte entry in a 12-byte
file. -/
theorem load_not_enough_data_witness :
    (OBT.init.load [12, 0, 0, 0, 5, 0, 0, 0, 1, 0, 0, 0]).2 =
      some (.invalidOBTFile "Not enough data in file") ∧
    (OBT.init.load [12, 0, 0, 0, 5, 0, 0, 0, 1, 0, 0, 0]).1.entries.length
      = 1 := by
  have h := load_not_enough_data [12, 0, 0, 0, 5, 0, 0, 0, 1, 0, 0, 0]
    (by decide) (by decide) (by decide) (by decide)
  exact ⟨h.1, h.2.trans (by decide)⟩

/-- C3 counterexample: a loadable 25-byte file (rows (24,0,0) and
(1000,1,1)) on which `load` succeeds, yet `export_entry 1` returns 0 of
the declared 1 bytes (the `fp.read` is clipped at end of file, so it does
not read "exactly size bytes"), and the result carries only bytes — no
compressed flag is returned alongside. -/
theorem export_entry_cx :
    (OBT.init.load
      [24, 0, 0, 0, 0, 0, 0, 0, 0, 0, 0, 0,
       232, 3, 0, 0, 1, 0, 0, 0, 1, 0, 0, 0, 99]).2 = none ∧
    ((OBT.init.load
      [24, 0, 0, 0, 0, 0, 0, 0, 0, 0, 0, 0,
       232, 3, 0, 0, 1, 0, 0, 0, 1, 0, 0, 0, 99]).1.entries.getD 1
        OBTEntry.init).size = 1 ∧
    (OBT.init.load
      [24, 0, 0, 0, 0, 0, 0, 0, 0, 0, 0, 0,
       232, 3, 0, 0, 1, 0, 0, 0, 1, 0, 0, 0, 99]).1.export_entry
      [24, 0, 0, 0, 0, 0, 0, 0, 0, 0, 0, 0,
       232, 3, 0, 0, 1, 0, 0, 0, 1, 0, 0, 0, 99] 1 = .ok [] := by
  decide

/-- C3 amended: in Read mode with a valid index, `export_entry` returns
exactly the file's bytes in [offset, offset + size) clipped at end of file
(so exactly `size` bytes whenever offset + size fits in the file), and it
returns only those bytes — the compressed flag stays on the entry record;
out of Read mode it fails with the not-opened state error, and on an
invalid index it fails (with the mistyped `raise OBTEntry(...)`, a
`TypeError`). -/
theorem export_entry_semantics (o : OBT) (file : List Nat) (idx : Nat) :
    (o.mode = OBTFileMode.OBT_Read →
      ∀ h : idx < o.entries.length,
        o.export_entry file idx =
          .ok ((file.drop (o.entries.get ⟨idx, h⟩).offset.toNat).take
            (o.entries.get ⟨idx, h⟩).size.toNat) ∧
        ((o.entries.get ⟨idx, h⟩).offset.toNat +
            (o.entries.get ⟨idx, h⟩).size.toNat ≤ file.length →
          ((file.drop (o.entries.get ⟨idx, h⟩).offset.toNat).take
            (o.entries.get ⟨idx, h⟩).size.toNat).length =
            (o.entries.get ⟨idx, h⟩).size.toNat)) ∧
    (o.mode ≠ OBTFileMode.OBT_Read →
      o.export_entry file idx = .error (.obtError "File is not opened")) ∧
    (o.mode = OBTFileMode.OBT_Read → o.entries.length ≤ idx →
      o.export_entry file idx = .error .typeError) := by
  refine ⟨fun hm h => ⟨?_, fun hfit => ?_⟩, fun hm => ?_, fun hm hidx => ?_⟩
  · unfold OBT.export_entry
    rw [if_neg (by rw [hm]; simp), dif_pos h]
  · rw [List.length_take, List.length_drop]
    omega
  · unfold OBT.export_entry
    rw [if_pos hm]
  · unfold OBT.export_entry
    rw [if_neg (by rw [hm]; simp), dif_neg (by omega)]

/-- C3 witness: a Read-mode archive whose single record points at the last
byte of a 13-byte file. -/
theorem export_entry_semantics_witness :
    OBT.export_entry
      { entries := [{ offset := 12, size := 1, is_compressed := 0,
                      loaded := true, raw_entry := none }],
        total_size := 13,
        entry_offset := 0, mode := OBTFileMode.OBT_Read }
      [12, 0, 0, 0, 0, 0, 0, 0, 0, 0, 0, 0, 99] 0 = .ok [99] := by
  have h := (export_entry_semantics
    { entries := [{ offset := 12, size := 1, is_compressed := 0,
                    loaded := true, raw_entry := none }],
      total_size := 13,
      entry_offset := 0, mode := OBTFileMode.OBT_Read }
    [12, 0, 0, 0, 0, 0, 0, 0, 0, 0, 0, 0, 99] 0).1 rfl (by decide)
  exact h.1.trans (by decide)

/-- A successful `writeHeader` on a non-empty entry list begins with the
little-endian encoding of the starting offset, which therefore was in the
unsigned 32-bit range. -/
lemma writeHeader_ok_structure (e : OBTEntry) (es : List OBTEntry)
    (off : Int) (bs : List Nat)
    (h : writeHeader (e :: es) off = .ok bs) :
    0 ≤ off ∧ off < 4294967296 ∧ ∃ rest, bs = le32 off.toNat ++ rest := by
  unfold writeHeader at h
  by_cases hc : 0 ≤ off ∧ off < 4294967296
  case neg =>
    rw [(packU32_spec off).2 hc] at h
    simp at h
  rw [(packU32_spec off).1 hc] at h
  rcases h2 : packU32 e.size with err | b2 <;> rw [h2] at h
  · simp at h
  rcases h3 : packU32 e.is_compressed with err | b3 <;> rw [h3] at h
  · simp at h
  rcases h4 : writeHeader es (off + e.size) with err | tail <;> rw [h4] at h
  · simp at h
  simp only [Except.ok.injEq] at h
  refine ⟨hc.1, hc.2, b2 ++ b3 ++ tail, ?_⟩
  rw [← h]
  simp [List.append_assoc]

/-- C7: after every successful `finalize_write` of N entries, the first 4
bytes of the produced file, read as a little-endian unsigned 32-bit
integer, equal N * 12: they are entry 0's offset field, which
`finalize_write` seeds with `header_size` because offsets are assigned
contiguously starting at the header size. -/
theorem finalize_first4_header_size (o : OBT) (out : List Nat)
    (h : o.finalize_write = .ok out) :
    fromLE (out.take 4) = o.entries.length * 12 := by
  unfold OBT.finalize_write at h
  by_cases hm : o.mode ≠ OBTFileMode.OBT_Write
  · rw [if_pos hm] at h
    simp at h
  rw [if_neg hm] at h
  by_cases hz : o.entries.length = 0
  · rw [if_pos hz] at h
    simp at h
  rw [if_neg hz] at h
  obtain ⟨e, es, hes⟩ : ∃ e es, o.entries = e :: es := by
    cases hE : o.entries with
    | nil => rw [hE] at hz; simp at hz
    | cons e es => exact ⟨e, es, rfl⟩
  rw [hes]
  rw [hes] at h
  rcases hH : writeHeader (e :: es) (((e :: es).length * 12 : Nat) : Int)
    with err | header <;> rw [hH] at h
  · simp at h
  rcases hP : writePayload (e :: es) with err | payload <;> rw [hP] at h
  · simp at h
  simp only [Except.ok.injEq] at h
  obtain ⟨h0, hlt, rest, hb⟩ := writeHeader_ok_structure e es _ header hH
  have hbound : (e :: es).length * 12 < 4294967296 := by exact_mod_cast hlt
  rw [← h, hb, List.append_assoc, take4_le32_append, Int.toNat_natCast,
    fromLE_le32 hbound]

/-- C7 witness: a write-mode archive holding one 1-byte entry. -/
theorem finalize_first4_header_size_witness :
    fromLE (([12, 0, 0, 0, 1, 0, 0, 0, 0, 0, 0, 0, 7] : List Nat).take 4)
      = 12 :=
  (finalize_first4_header_size
    { entries := [{ offset := -1, size := 1, is_compressed := 0,
                    loaded := false, raw_entry := some [7] }],
      total_size := 0, entry_offset := 1, mode := OBTFileMode.OBT_Write }
    [12, 0, 0, 0, 1, 0, 0, 0, 0, 0, 0, 0, 7] (by decide)).trans (by decide)

/-! Writer-side characterization, used for the round-trip claim. -/

lemma sizesSum_cons (bf : List Nat × Bool) (rest : List (List Nat × Bool)) :
    sizesSum (bf :: rest) = bf.1.length + sizesSum rest := by
  simp [sizesSum]

lemma addAll_write (blobs : List (List Nat × Bool)) :
    ∀ o : OBT, o.mode = OBTFileMode.OBT_Write →
      addAll o blobs =
        { o with
          entries := o.entries ++ blobs.map (fun bf => writeEntryOf bf.1 bf.2),
          entry_offset := o.entry_offset + blobs.length } := by
  induction blobs with
  | nil => intro o hm; simp [addAll]
  | cons bf rest ih =>
    intro o hm
    rw [addAll]
    have hstep : (o.add_entry bf.1 bf.2).1 =
        { o with
          entries := o.entries ++ [writeEntryOf bf.1 bf.2],
          entry_offset := o.entry_offset + 1 } := by
      unfold OBT.add_entry
      rw [if_neg (by rw [hm]; simp)]
      simp [OBTEntry.frombytes, OBTEntry.init, writeEntryOf]
    rw [hstep]
    rw [ih { o with
        entries := o.entries ++ [writeEntryOf bf.1 bf.2],
        entry_offset := o.entry_offset + 1 } hm]
    congr 1
    · simp [List.append_assoc]
    · simp only [List.length_cons]
      omega

lemma writerOf_eq (blobs : List (List Nat × Bool)) :
    writerOf blobs =
      { entries := blobs.map (fun bf => writeEntryOf bf.1 bf.2),
        total_size := 0, entry_offset := blobs.length,
        mode := OBTFileMode.OBT_Write } := by
  unfold writerOf
  rw [show (OBT.init.init_write false false).1 =
      { entries := [], total_size := 0, entry_offset := 0,
        mode := OBTFileMode.OBT_Write } from rfl,
    addAll_write blobs _ rfl]
  simp

lemma writeHeader_map (blobs : List (List Nat × Bool)) :
    ∀ off : Nat, off + sizesSum blobs < 4294967296 →
      writeHeader (blobs.map (fun bf => writeEntryOf bf.1 bf.2)) (off : Int) =
        .ok (headerAux blobs off) := by
  induction blobs with
  | nil => intro off h; simp [writeHeader, headerAux]
  | cons bf rest ih =>
    intro off h
    rw [sizesSum_cons] at h
    have h1 : packU32 (off : Int) = .ok (le32 off) :=
      packU32_natCast off (by omega)
    have h2 : packU32 (writeEntryOf bf.1 bf.2).size =
        .ok (le32 bf.1.length) :=
      packU32_natCast bf.1.length (by omega)
    have h3 : packU32 (writeEntryOf bf.1 bf.2).is_compressed =
        .ok (le32 (if bf.2 then 1 else 0)) := by
      rw [show (writeEntryOf bf.1 bf.2).is_compressed =
          (((if bf.2 then 1 else 0) : Nat) : Int) by
        cases bf.2 <;> rfl]
      exact packU32_natCast (if bf.2 then 1 else 0) (by
        cases bf.2 <;> norm_num)
    have h4 : writeHeader (rest.map (fun bf => writeEntryOf bf.1 bf.2))
        ((off : Int) + (writeEntryOf bf.1 bf.2).size) =
        .ok (headerAux rest (off + bf.1.length)) := by
      rw [show ((off : Int) + (writeEntryOf bf.1 bf.2).size) =
          ((off + bf.1.length : Nat) : Int) from
        (Nat.cast_add off bf.1.length).symm]
      exact ih (off + bf.1.length) (by omega)
    rw [List.map_cons]
    unfold writeHeader
    rw [h1, h2, h3, h4]
    rw [headerAux]

lemma writePayload_map (blobs : List (List Nat × Bool)) :
    writePayload (blobs.map (fun bf => writeEntryOf bf.1 bf.2)) =
      .ok ((blobs.map (fun bf => bf.1)).flatten) := by
  induction blobs with
  | nil => simp [writePayload]
  | cons bf rest ih =>
    rw [List.map_cons]
    unfold writePayload
    rw [show (writeEntryOf bf.1 bf.2).raw_entry = some bf.1 from rfl, ih]
    simp

lemma finalize_writerOf (blobs : List (List Nat × Bool)) (hne : blobs ≠ [])
    (hsz : blobs.length * 12 + sizesSum blobs < 4294967296) :
    (writerOf blobs).finalize_write = .ok (obtfileOf blobs) := by
  rw [writerOf_eq]
  unfold OBT.finalize_write
  rw [if_neg (by simp)]
  rw [if_neg (by
    simp only [List.length_map, List.length_eq_zero]
    exact hne)]
  simp only [List.length_map]
  rw [writeHeader_map blobs (blobs.length * 12) (by omega),
    writePayload_map blobs]
  simp [obtfileOf]

lemma headerAux_length (blobs : List (List Nat × Bool)) :
    ∀ off, (headerAux blobs off).length = blobs.length * 12 := by
  induction blobs with
  | nil => intro off; rfl
  | cons bf rest ih =>
    intro off
    simp [headerAux, le32, ih]
    omega

/-! Reader-side characterization of the writer's output file. -/

lemma presum_zero (blobs : List (List Nat × Bool)) : presum blobs 0 = 0 := rfl

lemma presum_cons_succ (bf : List Nat × Bool) (rest : List (List Nat × Bool))
    (i : Nat) :
    presum (bf :: rest) (i + 1) = bf.1.length + presum rest i := by
  simp [presum, sizesSum]

lemma drop12_row (a b c : Nat) (R : List Nat) (k : Nat) :
    (le32 a ++ (le32 b ++ (le32 c ++ R))).drop (12 + k) = R.drop k := by
  rw [show (le32 a ++ (le32 b ++ (le32 c ++ R))) =
      ((le32 a ++ le32 b ++ le32 c) ++ R) by simp [List.append_assoc]]
  rw [show 12 + k = (le32 a ++ le32 b ++ le32 c).length + k by simp [le32]]
  exact List.drop_append k

lemma header_rows (blobs : List (List Nat × Bool)) :
    ∀ (i : Nat) (off : Nat) (tail : List Nat),
      i < blobs.length → off + sizesSum blobs < 4294967296 →
      rowOff (headerAux blobs off ++ tail) i = off + presum blobs i ∧
      rowSize (headerAux blobs off ++ tail) i =
        (blobs.getD i ([], false)).1.length ∧
      rowFlag (headerAux blobs off ++ tail) i =
        (if (blobs.getD i ([], false)).2 then 1 else 0) := by
  induction blobs with
  | nil => intro i off tail hi _; exact absurd hi (by simp)
  | cons bf rest ih =>
    intro i off tail hi hb
    rw [sizesSum_cons] at hb
    have hshape : headerAux (bf :: rest) off ++ tail =
        le32 off ++ (le32 bf.1.length ++ (le32 (if bf.2 then 1 else 0) ++
          (headerAux rest (off + bf.1.length) ++ tail))) := by
      simp [headerAux, List.append_assoc]
    cases i with
    | zero =>
      refine ⟨?_, ?_, ?_⟩
      · rw [rowOff, hshape]
        simp only [Nat.zero_mul, List.drop_zero]
        rw [take4_le32_append, fromLE_le32 (by omega), presum_zero,
          Nat.add_zero]
      · rw [rowSize, hshape]
        simp only [Nat.zero_mul, Nat.zero_add]
        rw [drop4_le32_append, take4_le32_append, fromLE_le32 (by omega)]
        rw [List.getD_cons_zero]
      · rw [rowFlag, hshape]
        simp only [Nat.zero_mul, Nat.zero_add]
        rw [show (8 : Nat) = 4 + 4 from rfl, ← List.drop_drop,
          drop4_le32_append, drop4_le32_append, take4_le32_append,
          fromLE_le32 (by cases bf.2 <;> norm_num)]
        rw [List.getD_cons_zero]
    | succ i =>
      have hi' : i < rest.length := by simpa using hi
      have hrec := ih i (off + bf.1.length) tail hi' (by omega)
      have e1 : rowOff (headerAux (bf :: rest) off ++ tail) (i + 1) =
          rowOff (headerAux rest (off + bf.1.length) ++ tail) i := by
        rw [rowOff, rowOff, hshape,
          show (i + 1) * 12 = 12 + i * 12 by ring, drop12_row]
      have e2 : rowSize (headerAux (bf :: rest) off ++ tail) (i + 1) =
          rowSize (headerAux rest (off + bf.1.length) ++ tail) i := by
        rw [rowSize, rowSize, hshape,
          show (i + 1) * 12 + 4 = 12 + (i * 12 + 4) by ring, drop12_row]
      have e3 : rowFlag (headerAux (bf :: rest) off ++ tail) (i + 1) =
          rowFlag (headerAux rest (off + bf.1.length) ++ tail) i := by
        rw [rowFlag, rowFlag, hshape,
          show (i + 1) * 12 + 8 = 12 + (i * 12 + 8) by ring, drop12_row]
      refine ⟨?_, ?_, ?_⟩
      · rw [e1, hrec.1, presum_cons_succ]
        omega
      · rw [e2, hrec.2.1, List.getD_cons_succ]
      · rw [e3, hrec.2.2, List.getD_cons_succ]

lemma flatten_extract (blobs : List (List Nat × Bool)) :
    ∀ i, i < blobs.length →
      (((blobs.map (fun bf => bf.1)).flatten).drop (presum blobs i)).take
        (blobs.getD i ([], false)).1.length = (blobs.getD i ([], false)).1 := by
  induction blobs with
  | nil => intro i hi; exact absurd hi (by simp)
  | cons bf rest ih =>
    intro i hi
    cases i with
    | zero =>
      rw [List.map_cons, List.flatten_cons, presum_zero, List.drop_zero,
        List.getD_cons_zero]
      exact List.take_left bf.1 _
    | succ i =>
      rw [List.map_cons, List.flatten_cons, presum_cons_succ,
        List.getD_cons_succ, List.drop_append (presum rest i)]
      exact ih i (by simpa using hi)

lemma obtfileOf_length (blobs : List (List Nat × Bool)) :
    (obtfileOf blobs).length = blobs.length * 12 + sizesSum blobs := by
  rw [obtfileOf, List.length_append, headerAux_length, List.length_flatten]
  congr 1
  rw [sizesSum, List.map_map]
  rfl

lemma obtfileOf_take4 (blobs : List (List Nat × Bool)) (hne : blobs ≠ [])
    (hsz : blobs.length * 12 + sizesSum blobs < 4294967296) :
    fromLE ((obtfileOf blobs).take 4) = blobs.length * 12 := by
  have h0 := (header_rows blobs 0 (blobs.length * 12)
    ((blobs.map (fun bf => bf.1)).flatten)
    (List.length_pos.mpr hne) hsz).1
  rw [rowOff] at h0
  simpa [obtfileOf, presum_zero] using h0

lemma parsedTotal_blobs (blobs : List (List Nat × Bool))
    (hsz : blobs.length * 12 + sizesSum blobs < 4294967296) :
    ∀ (n i : Nat), i + n = blobs.length →
      parsedTotal (obtfileOf blobs) n i = sizesSum (blobs.drop i) := by
  intro n
  induction n with
  | zero =>
    intro i hi
    rw [parsedTotal, List.drop_eq_nil_of_le (by omega)]
    rfl
  | succ n ih =>
    intro i hi
    have hilt : i < blobs.length := by omega
    have hrow := (header_rows blobs i (blobs.length * 12)
      ((blobs.map (fun bf => bf.1)).flatten) hilt hsz).2.1
    rw [parsedTotal, ih (i + 1) (by omega),
      show rowSize (obtfileOf blobs) i =
        rowSize (headerAux blobs (blobs.length * 12) ++
          (blobs.map (fun bf => bf.1)).flatten) i from rfl,
      hrow, List.drop_eq_getElem_cons hilt, sizesSum_cons,
      List.getD_eq_getElem blobs ([], false) hilt]

/-- In Read mode with a valid index, `export_entry` returns the bytes at
[offset, offset + size) of the file, clipped at end of file (phrased with
`getD`). -/
lemma export_entry_read_getD (o : OBT) (file : List Nat) (idx : Nat)
    (hm : o.mode = OBTFileMode.OBT_Read) (h : idx < o.entries.length) :
    o.export_entry file idx =
      .ok ((file.drop ((o.entries.getD idx OBTEntry.init).offset.toNat)).take
        ((o.entries.getD idx OBTEntry.init).size.toNat)) := by
  unfold OBT.export_entry
  rw [if_neg (by rw [hm]; simp), dif_pos h]
  rw [List.get_eq_getElem, List.getD_eq_getElem _ _ h]

/-- C1 amended: for every non-empty list of (payload, flag) pairs whose
header plus total payload fits the unsigned 32-bit range
(N * 12 + Σ sizes < 2^32, so every packed header field is in range),
adding the entries in order to a write-mode archive, finalizing, loading
the produced file fresh, and exporting entry i yields exactly payload i,
and the parsed record's compressed flag equals flag i (as 0/1). -/
theorem roundtrip (blobs : List (List Nat × Bool)) (hne : blobs ≠ [])
    (hsz : blobs.length * 12 + sizesSum blobs < 4294967296) :
    (writerOf blobs).finalize_write = .ok (obtfileOf blobs) ∧
    (OBT.init.load (obtfileOf blobs)).2 = none ∧
    (OBT.init.load (obtfileOf blobs)).1.mode = OBTFileMode.OBT_Read ∧
    (OBT.init.load (obtfileOf blobs)).1.entries.length = blobs.length ∧
    ∀ i, i < blobs.length →
      (OBT.init.load (obtfileOf blobs)).1.export_entry (obtfileOf blobs) i =
        .ok (blobs.getD i ([], false)).1 ∧
      ((OBT.init.load (obtfileOf blobs)).1.entries.getD i
          OBTEntry.init).is_compressed =
        (if (blobs.getD i ([], false)).2 then 1 else 0) := by
  have hOF : obtfileOf blobs = headerAux blobs (blobs.length * 12) ++
      (blobs.map (fun bf => bf.1)).flatten := rfl
  have hNpos : 0 < blobs.length := List.length_pos.mpr hne
  have hlen : (obtfileOf blobs).length =
      blobs.length * 12 + sizesSum blobs := obtfileOf_length blobs
  have htake4 : fromLE ((obtfileOf blobs).take 4) = blobs.length * 12 :=
    obtfileOf_take4 blobs hne hsz
  have hn : fromLE ((obtfileOf blobs).take 4) / 12 = blobs.length := by
    rw [htake4, Nat.mul_div_cancel _ (by norm_num)]
  have hrows : ∀ i, i < blobs.length →
      rowOff (obtfileOf blobs) i = blobs.length * 12 + presum blobs i ∧
      rowSize (obtfileOf blobs) i = (blobs.getD i ([], false)).1.length ∧
      rowFlag (obtfileOf blobs) i =
        (if (blobs.getD i ([], false)).2 then 1 else 0) := by
    intro i hi
    have h := header_rows blobs i (blobs.length * 12)
      ((blobs.map (fun bf => bf.1)).flatten) hi hsz
    rw [← hOF] at h
    exact h
  have hflag : ∀ k, k < fromLE ((obtfileOf blobs).take 4) / 12 →
      rowFlag (obtfileOf blobs) k = 0 ∨ rowFlag (obtfileOf blobs) k = 1 := by
    intro k hk
    rw [hn] at hk
    rw [(hrows k hk).2.2]
    cases (blobs.getD k ([], false)).2 <;> simp
  have hptotal : parsedTotal (obtfileOf blobs) blobs.length 0 =
      sizesSum blobs := by
    simpa using parsedTotal_blobs blobs hsz blobs.length 0 (by omega)
  have hload := load_parsed (obtfileOf blobs)
    (by rw [hlen]; omega) (by rw [hlen, htake4]; omega) hflag
  rw [hn, htake4, hptotal] at hload
  rw [if_neg (by rw [hlen]; omega)] at hload
  have hE : (OBT.init.load (obtfileOf blobs)).1.entries =
      parsedEntries (obtfileOf blobs) blobs.length 0 := by rw [hload]
  have hmode : (OBT.init.load (obtfileOf blobs)).1.mode =
      OBTFileMode.OBT_Read := by rw [hload]
  refine ⟨finalize_writerOf blobs hne hsz, by rw [hload], hmode,
    by rw [hE, parsedEntries_length], fun i hi => ?_⟩
  have hgetD := parsedEntries_getD (obtfileOf blobs) blobs.length 0 i hi
  simp only [Nat.zero_add] at hgetD
  have hidx : i < (OBT.init.load (obtfileOf blobs)).1.entries.length := by
    rw [hE, parsedEntries_length]; exact hi
  have hdropH : (obtfileOf blobs).drop
      (blobs.length * 12 + presum blobs i) =
      ((blobs.map (fun bf => bf.1)).flatten).drop (presum blobs i) := by
    rw [hOF, show blobs.length * 12 + presum blobs i =
        (headerAux blobs (blobs.length * 12)).length + presum blobs i by
      rw [headerAux_length], List.drop_append]
  constructor
  · rw [export_entry_read_getD _ _ i hmode hidx, hE, hgetD]
    simp only [OBTEntry.load, Int.toNat_natCast]
    rw [(hrows i hi).1, (hrows i hi).2.1, hdropH, flatten_extract blobs i hi]
  · rw [hE, hgetD]
    simp only [OBTEntry.load]
    rw [(hrows i hi).2.2]
    cases (blobs.getD i ([], false)).2 <;> simp

/-- A header write fails with the struct range error as soon as the first
entry's size field fails to pack. -/
lemma writeHeader_size_err (e : OBTEntry) (es : List OBTEntry) (off : Int)
    (b1 : List Nat) (h1 : packU32 off = .ok b1)
    (h2 : packU32 e.size = .error .structError) :
    writeHeader (e :: es) off = .error .structError := by
  unfold writeHeader
  rw [h1, h2]

/-- `finalize_write` propagates a header-write failure. -/
lemma finalize_write_header_err (o : OBT)
    (hm : o.mode = OBTFileMode.OBT_Write) (hne : ¬(o.entries.length = 0))
    (hH : writeHeader o.entries ((o.entries.length * 12 : Nat) : Int) =
      .error .structError) :
    o.finalize_write = .error .structError := by
  unfold OBT.finalize_write
  rw [if_neg (by rw [hm]; simp), if_neg hne, hH]

/-- C1 counterexample: the round trip as universally stated fails — for
the single entry of 2^32 zero bytes, `finalize_write` fails with a
`struct.pack` range error (the size field does not fit "<I"), so no file
is produced and nothing can be loaded or exported. -/
theorem roundtrip_cx :
    (writerOf [(List.replicate 4294967296 0, false)]).finalize_write =
      .error .structError := by
  have hsize : (writeEntryOf (List.replicate 4294967296 (0 : Nat)) false).size =
      ((4294967296 : Nat) : Int) := by
    rw [show (writeEntryOf (List.replicate 4294967296 (0 : Nat)) false).size =
        ((List.replicate 4294967296 (0 : Nat)).length : Int) from rfl,
      List.length_replicate]
  have h2 : packU32
      (writeEntryOf (List.replicate 4294967296 (0 : Nat)) false).size =
      .error .structError := by
    rw [hsize]
    exact (packU32_spec _).2 (by omega)
  have hWH := writeHeader_size_err
    (writeEntryOf (List.replicate 4294967296 (0 : Nat)) false) []
    ((12 : Nat) : Int) (le32 12) (packU32_natCast 12 (by norm_num)) h2
  refine finalize_write_header_err _ (by rw [writerOf_eq]) ?_ ?_
  · rw [writerOf_eq, List.length_map, List.length_cons, List.length_nil]
    omega
  · rw [writerOf_eq]
    exact hWH

/-- C1 witness: the two-entry scenario with payloads "AB" and "CDE". -/
theorem roundtrip_witness :
    (OBT.init.load
      (obtfileOf [([65, 66], false), ([67, 68, 69], true)])).1.export_entry
      (obtfileOf [([65, 66], false), ([67, 68, 69], true)]) 1 =
      .ok [67, 68, 69] ∧
    ((OBT.init.load
      (obtfileOf [([65, 66], false), ([67, 68, 69], true)])).1.entries.getD 1
        OBTEntry.init).is_compressed = 1 := by
  have h := roundtrip [([65, 66], false), ([67, 68, 69], true)] (by decide)
    (by decide)
  have h1 := h.2.2.2.2 1 (by decide)
  exact ⟨h1.1.trans (by decide), h1.2.trans (by decide)⟩
